import Mathlib

/-
Verification of the rpclib client core (src/lib/rpc/client.cc) against its
specification. The embedding models the correlation table ongoing_calls_ as
an association list from call id to a method name together with a reference
into a heap of one-shot promise slots; keeping promises in a separate heap
lets a promise outlive the erasure of its table entry, exactly as a future
held by a caller outlives the erased unordered_map entry in the program.
-/

set_option maxHeartbeats 1000000

namespace rpc

/-- Connection lifecycle states of the client, mirroring the
connection_state enumeration used by client.cc. -/
inductive connection_state
  | initial
  | connected
  | disconnected
deriving DecidableEq

/-- Payload of a decoded response frame: mutually exclusive result or error,
as exposed by a response r via r.get_result and r.get_error in the do_read
handler. Payload contents are abstracted to natural numbers. -/
inductive FramePayload
  | result (v : Nat)
  | err (e : Nat)
deriving DecidableEq

/-- A decoded response frame: an id plus a result or error payload. -/
structure Frame where
  id : Nat
  payload : FramePayload
deriving DecidableEq

/-- The rpc_error raised in do_read for an error frame. It carries the
method name read from the correlation table entry and the error payload of
the frame. -/
structure RpcError where
  func_name : String
  error_payload : Nat
deriving DecidableEq

/-- State of the one-shot promise inside a call_t entry. set_value stores
hasValue, set_exception stores hasError for the rpc_error raised on an
error frame, and hasFutureError for a stored future_error. Any set on an
already satisfied promise fails without changing the stored state. -/
inductive PromiseState
  | unset
  | hasValue (v : Nat)
  | hasError (e : RpcError)
  | hasFutureError
deriving DecidableEq

/-- Association list lookup keyed by Nat, first occurrence wins, modelling
find on std unordered_map. -/
def alookup {β : Type} : List (Nat × β) → Nat → Option β
  | [], _ => none
  | (k, v) :: rest, id => if k = id then some v else alookup rest id

/-- Replace the value stored at the first occurrence of a key. -/
def heapSet {β : Type} : List (Nat × β) → Nat → β → List (Nat × β)
  | [], _, _ => []
  | (k, v) :: rest, r, p => if k = r then (k, p) :: rest else (k, v) :: heapSet rest r p

/-- Remove the first occurrence of a key, modelling erase on std
unordered_map. -/
def tableErase {β : Type} : List (Nat × β) → Nat → List (Nat × β)
  | [], _ => []
  | (k, v) :: rest, id => if k = id then rest else (k, v) :: tableErase rest id

/-- Engine state touched by the read path of client.cc. The correlation
table ongoing_calls_ maps a call id to the method name plus a reference
into the heap of promise slots; nextRef is the next fresh promise slot;
connState is the field state_ of client impl. -/
structure ClientState where
  table : List (Nat × (String × Nat))
  promises : List (Nat × PromiseState)
  nextRef : Nat
  connState : connection_state
deriving DecidableEq

/-- Semantics of set_value and set_exception on a std promise: they succeed
exactly when no value or exception is stored yet, and otherwise fail with a
future_error, leaving the stored state unchanged. -/
def promTrySet (hp : List (Nat × PromiseState)) (ref : Nat) (new : PromiseState) :
    Option (List (Nat × PromiseState)) :=
  match alookup hp ref with
  | some PromiseState.unset => some (heapSet hp ref new)
  | _ => none

/-- Semantics of the expression ongoing_calls_ at index id on line 88 of
client.cc: index access on unordered_map returns the existing entry, or
default-inserts an entry with an empty method name and a fresh unset
promise when the id is absent. -/
def mapIndexOp (s : ClientState) (id : Nat) : (String × Nat) × ClientState :=
  match alookup s.table id with
  | some entry => (entry, s)
  | none =>
      (("", s.nextRef),
        { s with
          table := s.table ++ [(id, ("", s.nextRef))],
          promises := s.promises ++ [(s.nextRef, PromiseState.unset)],
          nextRef := s.nextRef + 1 })

/-- Outcome of dispatching one decoded frame in the do_read handler: the
state afterwards, whether an exception escaped the handler, and the id
whose erasure was posted to the strand, none when the dispatch escaped
before reaching the post. -/
structure DispOut where
  st : ClientState
  escaped : Bool
  eraseId : Option Nat
deriving DecidableEq

/-- Lines 86 to 99 of client.cc for one frame: fetch the table entry for
the frame id by index access; on an error frame raise an rpc_error carrying
the entry method name and the error payload, caught and stored through
set_exception; on a result frame store the value through set_value, and
when that fails because the promise is already satisfied, the caught
future_error is re-stored through set_exception, which then also fails and
escapes uncaught; finally post erasure of the id to the strand. -/
def dispatchFrame (s : ClientState) (f : Frame) : DispOut :=
  let r := mapIndexOp s f.id
  match f.payload with
  | FramePayload.err e =>
      match promTrySet r.2.promises r.1.2 (PromiseState.hasError ⟨r.1.1, e⟩) with
      | some hp => ⟨{ r.2 with promises := hp }, false, some f.id⟩
      | none => ⟨r.2, true, none⟩
  | FramePayload.result v =>
      match promTrySet r.2.promises r.1.2 (PromiseState.hasValue v) with
      | some hp => ⟨{ r.2 with promises := hp }, false, some f.id⟩
      | none =>
          match promTrySet r.2.promises r.1.2 PromiseState.hasFutureError with
          | some hp => ⟨{ r.2 with promises := hp }, false, some f.id⟩
          | none => ⟨r.2, true, none⟩

/-- The while loop over decoded frames of one successful read: dispatch
each frame in order, accumulating the erase ids posted to the strand; when
a dispatch escapes with an uncaught exception the loop aborts there and the
posted erasures never run, because the escaping exception terminates the
engine thread. -/
def dispatchBatch : ClientState → List Frame → List Nat →
    Except ClientState (ClientState × List Nat)
  | s, [], acc => Except.ok (s, acc)
  | s, f :: rest, acc =>
      let o := dispatchFrame s f
      if o.escaped then Except.error o.st
      else dispatchBatch o.st rest (acc ++ o.eraseId.toList)

/-- Execution of the erase closures posted to the strand during a batch;
they run after the read handler returns and before the next handler. -/
def applyErases (s : ClientState) (ids : List Nat) : ClientState :=
  ids.foldl (fun acc id => { acc with table := tableErase acc.table id }) s

/-- Error codes distinguished by the do_read completion handler. -/
inductive errc
  | eof
  | connection_reset
  | other (code : Nat)
deriving DecidableEq

/-- Outcome of one run of the do_read completion handler: a new read was
armed, the loop stopped after a terminal condition, the error was only
logged, or an uncaught exception escaped the handler. -/
inductive ReadResult
  | rearmed (s : ClientState)
  | stopped (s : ClientState)
  | loggedOnly (s : ClientState)
  | escaped (s : ClientState)
deriving DecidableEq

/-- True when the handler armed a further read. -/
def ReadResult.isRearmed : ReadResult → Bool
  | ReadResult.rearmed _ => true
  | _ => false

/-- True when an uncaught exception escaped the handler. -/
def ReadResult.isEscaped : ReadResult → Bool
  | ReadResult.escaped _ => true
  | _ => false

/-- Lines 79 to 125 of client.cc: on a successful read every decoded frame
is dispatched and then do_read is re-armed, unless a dispatch escaped with
an uncaught exception, which prevents the re-arm; eof and connection_reset
set the state to disconnected and issue no further read; any other error is
only logged and the loop is not restarted. Erasures posted during a
successful batch run once the handler returns, before the next handler. -/
def do_read_handler (s : ClientState) (ec : Option errc) (frames : List Frame) :
    ReadResult :=
  match ec with
  | none =>
      match dispatchBatch s frames [] with
      | Except.ok (s1, erases) => ReadResult.rearmed (applyErases s1 erases)
      | Except.error s1 => ReadResult.escaped s1
  | some errc.eof =>
      ReadResult.stopped { s with connState := connection_state.disconnected }
  | some errc.connection_reset =>
      ReadResult.stopped { s with connState := connection_state.disconnected }
  | some (errc.other _) => ReadResult.loggedOnly s

/-- Observable effects of the async_connect completion handler inside
do_connect, lines 54 to 68 of client.cc: the resulting connection state,
the is_connected_ flag, the value written into the connection promise,
whether the condition variable conn_finished_ was notified, and whether
do_read was started. -/
structure ConnOut where
  connState : connection_state
  is_connected : Bool
  promiseValue : connection_state
  notified : Bool
  readStarted : Bool
deriving DecidableEq

/-- The async_connect completion handler: with no error code it records the
connection, sets the state to connected, fulfills the promise with
connected, notifies the condition variable and starts do_read; with an
error code it sets the state to disconnected and fulfills the promise with
disconnected, neither notifying the condition variable nor starting the
read loop. -/
def do_connect_handler (ec : Option Nat) (prev_is_connected : Bool) : ConnOut :=
  match ec with
  | none =>
      ⟨connection_state.connected, true, connection_state.connected, true, true⟩
  | some _ =>
      ⟨connection_state.disconnected, prev_is_connected,
        connection_state.disconnected, false, false⟩

/-- Outcome of wait_conn: a normal return, a raised rpc timeout carrying
the configured duration together with the target address and port, or an
indefinite block on the condition variable. -/
inductive WaitOutcome
  | returned
  | timedOut (duration : Int) (addr : String) (port : Nat)
  | blockedForever
deriving DecidableEq

/-- Result of wait_conn together with whether the condition variable was
waited on at all. -/
structure WaitRes where
  outcome : WaitOutcome
  waited : Bool
deriving DecidableEq

/-- Function wait_conn, lines 156 to 173 of client.cc: when the state is
already connected it returns without touching the condition variable;
otherwise with a configured timeout it waits and, when the signal does not
fire within the duration, raises a timeout carrying the configured duration
together with the target address and port; with no timeout it waits on the
condition variable indefinitely. The parameter signalFires abstracts
whether a notification arrives during the wait. -/
def wait_conn (st : connection_state) (timeout : Option Int) (addr : String)
    (port : Nat) (signalFires : Bool) : WaitRes :=
  if st = connection_state.connected then ⟨WaitOutcome.returned, false⟩
  else
    match timeout with
    | some t =>
        if signalFires then ⟨WaitOutcome.returned, true⟩
        else ⟨WaitOutcome.timedOut t addr port, true⟩
    | none =>
        if signalFires then ⟨WaitOutcome.returned, true⟩
        else ⟨WaitOutcome.blockedForever, true⟩

/-- Reading of a 32 bit value as a two complement signed int, the return
type of get_next_call_idx. -/
def toSigned32 (n : Nat) : Int :=
  if n < 2 ^ 31 then (n : Int) else (n : Int) - 2 ^ 32

/-- Raw 32 bit value of the atomic counter call_idx_ after n increments
from its initial value 0 set on line 34 of client.cc; increments on the
fixed width atomic int wrap modulo 2 to the 32. -/
def callIdxAfter : Nat → Nat
  | 0 => 0
  | n + 1 => (callIdxAfter n + 1) % 2 ^ 32

/-- Value returned by the nth invocation of get_next_call_idx, lines 227 to
230 of client.cc: increment the counter and return the new value as an
int. -/
def allocatedId (n : Nat) : Int := toSigned32 (callIdxAfter n)

/-- The strand task of client post, lines 232 to 241 of client.cc: insert
the pair of method name and promise under the id. Insert on unordered_map
does not overwrite an existing key; in that case the new pair is discarded
and the new promise is never stored in the table. The handing of the
encoded buffer to the writer is outside the correlation claims and not
modelled. -/
def post (s : ClientState) (idx : Nat) (func_name : String) : ClientState :=
  if (alookup s.table idx).isSome then s
  else
    { s with
      table := s.table ++ [(idx, (func_name, s.nextRef))],
      promises := s.promises ++ [(s.nextRef, PromiseState.unset)],
      nextRef := s.nextRef + 1 }

lemma alookup_append_left {β : Type} {l l2 : List (Nat × β)} {k : Nat} {v : β}
    (h : alookup l k = some v) : alookup (l ++ l2) k = some v := by
  induction l with
  | nil => simp [alookup] at h
  | cons hd tl ih =>
      obtain ⟨k2, v2⟩ := hd
      by_cases hk : k2 = k
      · simpa [alookup, hk] using h
      · rw [List.cons_append, alookup, if_neg hk]
        rw [alookup, if_neg hk] at h
        exact ih h

lemma alookup_append_right {β : Type} {l l2 : List (Nat × β)} {k : Nat}
    (h : alookup l k = none) : alookup (l ++ l2) k = alookup l2 k := by
  induction l with
  | nil => rfl
  | cons hd tl ih =>
      obtain ⟨k2, v2⟩ := hd
      by_cases hk : k2 = k
      · rw [alookup, if_pos hk] at h
        exact absurd h (by simp)
      · rw [alookup, if_neg hk] at h
        rw [List.cons_append, alookup, if_neg hk]
        exact ih h

lemma alookup_heapSet_ne {β : Type} {hp : List (Nat × β)} {r k : Nat} {p : β}
    (hne : k ≠ r) : alookup (heapSet hp r p) k = alookup hp k := by
  induction hp with
  | nil => simp [heapSet]
  | cons hd tl ih =>
      obtain ⟨k2, v2⟩ := hd
      by_cases hk : k2 = r
      · subst hk
        rw [heapSet, if_pos rfl, alookup, alookup, if_neg (fun h => hne h.symm),
          if_neg (fun h => hne h.symm)]
      · rw [heapSet, if_neg hk, alookup, alookup]
        by_cases hk2 : k2 = k
        · rw [if_pos hk2, if_pos hk2]
        · rw [if_neg hk2, if_neg hk2]
          exact ih

lemma alookup_heapSet_self {β : Type} {hp : List (Nat × β)} {r : Nat} {p : β}
    (hs : (alookup hp r).isSome) : alookup (heapSet hp r p) r = some p := by
  induction hp with
  | nil => simp [alookup] at hs
  | cons hd tl ih =>
      obtain ⟨k2, v2⟩ := hd
      by_cases hk : k2 = r
      · rw [heapSet, if_pos hk, alookup, if_pos hk]
      · rw [heapSet, if_neg hk, alookup, if_neg hk]
        rw [alookup, if_neg hk] at hs
        exact ih hs

lemma tableErase_append {β : Type} {t : List (Nat × β)} {id : Nat} {x : β}
    (h : alookup t id = none) : tableErase (t ++ [(id, x)]) id = t := by
  induction t with
  | nil => simp [tableErase]
  | cons hd tl ih =>
      obtain ⟨k2, v2⟩ := hd
      by_cases hk : k2 = id
      · rw [alookup, if_pos hk] at h
        exact absurd h (by simp)
      · rw [alookup, if_neg hk] at h
        rw [List.cons_append, tableErase, if_neg hk, ih h]

lemma promTrySet_some_preserves {hp hp2 : List (Nat × PromiseState)} {ref : Nat}
    {new : PromiseState} (hset : promTrySet hp ref new = some hp2)
    {r : Nat} {p : PromiseState} (hr : alookup hp r = some p)
    (hne : p ≠ PromiseState.unset) : alookup hp2 r = some p := by
  unfold promTrySet at hset
  cases hq : alookup hp ref with
  | none => rw [hq] at hset; exact absurd hset (by simp)
  | some q =>
      cases q with
      | unset =>
          rw [hq] at hset
          have h2 : hp2 = heapSet hp ref new := by
            simpa using hset.symm
          subst h2
          have hrref : r ≠ ref := by
            intro h
            subst h
            rw [hq] at hr
            exact hne (by injection hr.symm)
          rw [alookup_heapSet_ne hrref]
          exact hr
      | hasValue v => rw [hq] at hset; exact absurd hset (by simp)
      | hasError e => rw [hq] at hset; exact absurd hset (by simp)
      | hasFutureError => rw [hq] at hset; exact absurd hset (by simp)

/-- A promise slot that already holds a value or an exception is never
changed by the dispatch of any further frame. -/
lemma dispatch_preserves_resolved (s : ClientState) (f : Frame) (r : Nat)
    (p : PromiseState) (hr : alookup s.promises r = some p)
    (hne : p ≠ PromiseState.unset) :
    alookup (dispatchFrame s f).st.promises r = some p := by
  unfold dispatchFrame
  have hmap : alookup (mapIndexOp s f.id).2.promises r = some p := by
    unfold mapIndexOp
    cases htab : alookup s.table f.id with
    | some entry => simpa [htab] using hr
    | none => simpa [htab] using alookup_append_left hr
  cases f.payload with
  | err e =>
      cases hset : promTrySet (mapIndexOp s f.id).2.promises (mapIndexOp s f.id).1.2
          (PromiseState.hasError ⟨(mapIndexOp s f.id).1.1, e⟩) with
      | some hp => simpa [hset] using promTrySet_some_preserves hset hmap hne
      | none => simpa [hset] using hmap
  | result v =>
      cases hset : promTrySet (mapIndexOp s f.id).2.promises (mapIndexOp s f.id).1.2
          (PromiseState.hasValue v) with
      | some hp => simpa [hset] using promTrySet_some_preserves hset hmap hne
      | none =>
          cases hset2 : promTrySet (mapIndexOp s f.id).2.promises (mapIndexOp s f.id).1.2
              PromiseState.hasFutureError with
          | some hp => simpa [hset, hset2] using promTrySet_some_preserves hset2 hmap hne
          | none => simpa [hset, hset2] using hmap

/-- Claim C1: for a pending call registered in the correlation table with
an unset completion slot, dispatching a frame with its id delivers exactly
the outcome of the frame, a value for a result frame and an error for an
error frame; and once the slot holds a value or an error, dispatching any
further frame, in particular a duplicate with the same id, leaves the slot
unchanged, so the completion is resolved at most once and never with both
outcomes. -/
theorem c1_at_most_once_resolution (s : ClientState) (ref : Nat) :
    (∀ id name v, alookup s.table id = some (name, ref) →
        alookup s.promises ref = some PromiseState.unset →
        alookup (dispatchFrame s ⟨id, FramePayload.result v⟩).st.promises ref
          = some (PromiseState.hasValue v))
    ∧ (∀ id name e, alookup s.table id = some (name, ref) →
        alookup s.promises ref = some PromiseState.unset →
        alookup (dispatchFrame s ⟨id, FramePayload.err e⟩).st.promises ref
          = some (PromiseState.hasError ⟨name, e⟩))
    ∧ (∀ p, alookup s.promises ref = some p → p ≠ PromiseState.unset →
        ∀ f, alookup (dispatchFrame s f).st.promises ref = some p) := by
  refine ⟨?_, ?_, ?_⟩
  · intro id name v htab hun
    simp only [dispatchFrame, mapIndexOp, htab, promTrySet, hun]
    exact alookup_heapSet_self (by rw [hun]; rfl)
  · intro id name e htab hun
    simp only [dispatchFrame, mapIndexOp, htab, promTrySet, hun]
    exact alookup_heapSet_self (by rw [hun]; rfl)
  · intro p hp hne f
    exact dispatch_preserves_resolved s f ref p hp hne

/-- Witness for C1 at a concrete client state with one registered call. -/
theorem c1_witness :
    alookup (dispatchFrame ⟨[(1, ("add", 0))], [(0, PromiseState.unset)], 1,
        connection_state.connected⟩ ⟨1, FramePayload.result 7⟩).st.promises 0
      = some (PromiseState.hasValue 7) :=
  (c1_at_most_once_resolution ⟨[(1, ("add", 0))], [(0, PromiseState.unset)], 1,
    connection_state.connected⟩ 0).1 1 "add" 7 (by rfl) (by rfl)

/-- Claim C8: when a dispatched response frame carries an error payload and
its id matches a pending call with an unset completion, the completion is
fulfilled with a failure, namely the rpc_error tagging the method name
recorded at registration together with the error payload of the frame; no
success value is stored, no exception escapes, and erasure of the entry is
posted. -/
theorem c8_remote_error (s : ClientState) (id : Nat) (name : String) (ref : Nat)
    (e : Nat) (htab : alookup s.table id = some (name, ref))
    (hun : alookup s.promises ref = some PromiseState.unset) :
    alookup (dispatchFrame s ⟨id, FramePayload.err e⟩).st.promises ref
      = some (PromiseState.hasError ⟨name, e⟩)
    ∧ (dispatchFrame s ⟨id, FramePayload.err e⟩).escaped = false
    ∧ (dispatchFrame s ⟨id, FramePayload.err e⟩).eraseId = some id := by
  refine ⟨?_, ?_, ?_⟩
  · simp only [dispatchFrame, mapIndexOp, htab, promTrySet, hun]
    exact alookup_heapSet_self (by rw [hun]; rfl)
  · simp only [dispatchFrame, mapIndexOp, htab, promTrySet, hun]
  · simp only [dispatchFrame, mapIndexOp, htab, promTrySet, hun]

/-- Witness for C8 at a concrete client state with one registered call. -/
theorem c8_witness :
    alookup (dispatchFrame ⟨[(2, ("sub", 3))], [(3, PromiseState.unset)], 4,
        connection_state.connected⟩ ⟨2, FramePayload.err 9⟩).st.promises 3
      = some (PromiseState.hasError ⟨"sub", 9⟩) :=
  (c8_remote_error ⟨[(2, ("sub", 3))], [(3, PromiseState.unset)], 4,
    connection_state.connected⟩ 2 "sub" 3 9 (by rfl) (by rfl)).1

/-- Counterexample for C2: dispatching a frame whose id 5 was never
registered does not leave the correlation table unchanged, because index
access on unordered_map default-inserts an entry for the id; and a read
batch consisting of two frames with the same unregistered id is not ignored
without fault, because the second frame hits the transient default entry,
whose promise is already satisfied, and the handler escapes with an
uncaught exception. -/
theorem c2_counterexample :
    (dispatchFrame ⟨[], [], 0, connection_state.connected⟩
        ⟨5, FramePayload.result 1⟩).st.table ≠ []
    ∧ (do_read_handler ⟨[], [], 0, connection_state.connected⟩ none
        [⟨5, FramePayload.result 1⟩, ⟨5, FramePayload.result 2⟩]).isEscaped = true := by
  decide

/-- Claim C2 amended: when the read loop dispatches a frame whose id has no
matching entry in the correlation table, no exception escapes and every
promise slot present before the dispatch, resolved or pending, is left
unchanged, so no previously registered completion is fulfilled; however the
dispatch default-inserts a fresh entry for the id, whose fresh completion
absorbs the frame outcome, and posts its erasure, so the table contains the
id until the posted erase runs and only then returns to its prior
contents. -/
theorem c2_amended_unmatched_frame (s : ClientState) (id : Nat) (pl : FramePayload)
    (habs : alookup s.table id = none)
    (hfresh : alookup s.promises s.nextRef = none) :
    (dispatchFrame s ⟨id, pl⟩).escaped = false
    ∧ (∀ r p, alookup s.promises r = some p →
        alookup (dispatchFrame s ⟨id, pl⟩).st.promises r = some p)
    ∧ alookup (dispatchFrame s ⟨id, pl⟩).st.table id = some ("", s.nextRef)
    ∧ tableErase (dispatchFrame s ⟨id, pl⟩).st.table id = s.table := by
  have hfr : alookup (s.promises ++ [(s.nextRef, PromiseState.unset)]) s.nextRef
      = some PromiseState.unset := by
    rw [alookup_append_right hfresh]
    simp [alookup]
  have hset : ∀ new, promTrySet (s.promises ++ [(s.nextRef, PromiseState.unset)])
      s.nextRef new
      = some (heapSet (s.promises ++ [(s.nextRef, PromiseState.unset)]) s.nextRef new) := by
    intro new
    unfold promTrySet
    rw [hfr]
  have hpres : ∀ new r p, alookup s.promises r = some p →
      alookup (heapSet (s.promises ++ [(s.nextRef, PromiseState.unset)]) s.nextRef new) r
        = some p := by
    intro new r p hr
    have hrne : r ≠ s.nextRef := by
      intro hEq
      rw [hEq, hfresh] at hr
      exact Option.noConfusion hr
    rw [alookup_heapSet_ne hrne]
    exact alookup_append_left hr
  have htb : alookup (s.table ++ [(id, ("", s.nextRef))]) id = some ("", s.nextRef) := by
    rw [alookup_append_right habs]
    simp [alookup]
  have hte : tableErase (s.table ++ [(id, ("", s.nextRef))]) id = s.table :=
    tableErase_append habs
  cases pl with
  | result v =>
      have hd : dispatchFrame s ⟨id, FramePayload.result v⟩
          = ⟨{ s with
                table := s.table ++ [(id, ("", s.nextRef))],
                promises := heapSet (s.promises ++ [(s.nextRef, PromiseState.unset)])
                  s.nextRef (PromiseState.hasValue v),
                nextRef := s.nextRef + 1 }, false, some id⟩ := by
        simp only [dispatchFrame, mapIndexOp, habs, hset]
      rw [hd]
      exact ⟨rfl, fun r p hr => hpres _ r p hr, htb, hte⟩
  | err e =>
      have hd : dispatchFrame s ⟨id, FramePayload.err e⟩
          = ⟨{ s with
                table := s.table ++ [(id, ("", s.nextRef))],
                promises := heapSet (s.promises ++ [(s.nextRef, PromiseState.unset)])
                  s.nextRef (PromiseState.hasError ⟨"", e⟩),
                nextRef := s.nextRef + 1 }, false, some id⟩ := by
        simp only [dispatchFrame, mapIndexOp, habs, hset]
      rw [hd]
      exact ⟨rfl, fun r p hr => hpres _ r p hr, htb, hte⟩

/-- Witness for the amended C2 at a concrete client state holding one
resolved promise and no entry for the dispatched id. -/
theorem c2_witness :
    (dispatchFrame ⟨[(1, ("m", 0))], [(0, PromiseState.hasValue 3)], 1,
        connection_state.connected⟩ ⟨7, FramePayload.result 4⟩).escaped = false
    ∧ alookup (dispatchFrame ⟨[(1, ("m", 0))], [(0, PromiseState.hasValue 3)], 1,
        connection_state.connected⟩ ⟨7, FramePayload.result 4⟩).st.table 7
      = some ("", 1)
    ∧ tableErase (dispatchFrame ⟨[(1, ("m", 0))], [(0, PromiseState.hasValue 3)], 1,
        connection_state.connected⟩ ⟨7, FramePayload.result 4⟩).st.table 7
      = [(1, ("m", 0))] :=
  ⟨(c2_amended_unmatched_frame ⟨[(1, ("m", 0))], [(0, PromiseState.hasValue 3)], 1,
      connection_state.connected⟩ 7 (FramePayload.result 4) (by rfl) (by rfl)).1,
   (c2_amended_unmatched_frame ⟨[(1, ("m", 0))], [(0, PromiseState.hasValue 3)], 1,
      connection_state.connected⟩ 7 (FramePayload.result 4) (by rfl) (by rfl)).2.2.1,
   (c2_amended_unmatched_frame ⟨[(1, ("m", 0))], [(0, PromiseState.hasValue 3)], 1,
      connection_state.connected⟩ 7 (FramePayload.result 4) (by rfl) (by rfl)).2.2.2⟩

lemma callIdxAfter_eq (n : Nat) : callIdxAfter n = n % 2 ^ 32 := by
  induction n with
  | zero => rfl
  | succ n ih =>
      simp only [callIdxAfter, ih]
      rw [Nat.add_mod n 1]
      norm_num

lemma allocatedId_small {k : Nat} (hk : k < 2 ^ 31) : allocatedId k = k := by
  unfold allocatedId
  rw [callIdxAfter_eq, Nat.mod_eq_of_lt (lt_trans hk (by norm_num))]
  unfold toSigned32
  rw [if_pos hk]

/-- Counterexample for C3: the call counter is a fixed width int, so the
allocation with index 2 to the 31 wraps to a negative value and is smaller
than the allocation immediately before it, refuting strict growth over all
sequences of calls to get_next_call_idx. -/
theorem c3_counterexample :
    (2 ^ 31 - 1 : Nat) < 2 ^ 31 ∧ allocatedId (2 ^ 31) < allocatedId (2 ^ 31 - 1) := by
  constructor
  · norm_num
  · have h1 : allocatedId (2 ^ 31 - 1) = ((2 ^ 31 - 1 : Nat) : Int) :=
      allocatedId_small (by norm_num)
    have h2 : allocatedId (2 ^ 31) = (2 : Int) ^ 31 - 2 ^ 32 := by
      unfold allocatedId
      rw [callIdxAfter_eq, Nat.mod_eq_of_lt (by norm_num)]
      unfold toSigned32
      rw [if_neg (by norm_num)]
      norm_num
    rw [h1, h2]
    norm_num

/-- Claim C3 amended: starting from a freshly constructed client the first
invocation of get_next_call_idx returns 1, and as long as fewer than 2 to
the 31 allocations have been made the returned ids are strictly
increasing; beyond that bound the fixed width counter wraps. -/
theorem c3_amended_monotonic :
    allocatedId 1 = 1
    ∧ ∀ m n : Nat, 1 ≤ m → m < n → n < 2 ^ 31 → allocatedId m < allocatedId n := by
  constructor
  · simpa using allocatedId_small (k := 1) (by norm_num)
  · intro m n h1 hmn hn
    rw [allocatedId_small (lt_trans hmn hn), allocatedId_small hn]
    exact_mod_cast hmn

/-- Witness for the amended C3 at the first two allocations. -/
theorem c3_witness : allocatedId 1 = 1 ∧ allocatedId 1 < allocatedId 2 :=
  ⟨c3_amended_monotonic.1,
   c3_amended_monotonic.2 1 2 (by norm_num) (by norm_num) (by norm_num)⟩

/-- Claim C4: the async_connect completion handler, on success, sets the
connection state to connected, fulfills the one shot connection promise
with connected and starts the read loop; on failure it sets the state to
disconnected, fulfills the same promise with disconnected and does not
start the read loop. -/
theorem c4_connect_handler (prev : Bool) :
    ((do_connect_handler none prev).connState = connection_state.connected
      ∧ (do_connect_handler none prev).promiseValue = connection_state.connected
      ∧ (do_connect_handler none prev).readStarted = true)
    ∧ ∀ e : Nat,
      (do_connect_handler (some e) prev).connState = connection_state.disconnected
      ∧ (do_connect_handler (some e) prev).promiseValue = connection_state.disconnected
      ∧ (do_connect_handler (some e) prev).readStarted = false :=
  ⟨⟨rfl, rfl, rfl⟩, fun _ => ⟨rfl, rfl, rfl⟩⟩

/-- Counterexample for C5: a successful read whose batch holds two frames
with the same registered id is dispatched without any transport error, yet
the handler does not re-arm a further read, because the duplicate frame
raises an uncaught exception; this refutes the claim that a new read is
armed whenever the previous read completed without error. -/
theorem c5_counterexample :
    (do_read_handler ⟨[(1, ("m", 0))], [(0, PromiseState.unset)], 1,
        connection_state.connected⟩ none
        [⟨1, FramePayload.result 5⟩, ⟨1, FramePayload.result 6⟩]).isRearmed = false
    ∧ (do_read_handler ⟨[(1, ("m", 0))], [(0, PromiseState.unset)], 1,
        connection_state.connected⟩ none
        [⟨1, FramePayload.result 5⟩, ⟨1, FramePayload.result 6⟩]).isEscaped = true := by
  decide

/-- Claim C5 amended: the read handler re-arms a new read exactly when the
read completed without error and every decoded frame of the batch was
dispatched without an uncaught exception; on end of file or connection
reset it sets the state to disconnected and issues no further read; on any
other error it only logs and never restarts the loop. -/
theorem c5_amended_read_loop (s : ClientState) (frames : List Frame) :
    (do_read_handler s (some errc.eof) frames
      = ReadResult.stopped { s with connState := connection_state.disconnected })
    ∧ (do_read_handler s (some errc.connection_reset) frames
      = ReadResult.stopped { s with connState := connection_state.disconnected })
    ∧ (∀ code, do_read_handler s (some (errc.other code)) frames
      = ReadResult.loggedOnly s)
    ∧ ((do_read_handler s none frames).isRearmed = true
      ↔ ∃ s1 erases, dispatchBatch s frames [] = Except.ok (s1, erases)) := by
  refine ⟨rfl, rfl, fun code => rfl, ?_⟩
  cases hb : dispatchBatch s frames [] with
  | ok pr =>
      obtain ⟨s1, erases⟩ := pr
      simp only [do_read_handler, hb, ReadResult.isRearmed]
      exact ⟨fun _ => ⟨s1, erases, rfl⟩, fun _ => trivial⟩
  | error s1 =>
      simp only [do_read_handler, hb, ReadResult.isRearmed]
      constructor
      · intro h
        exact absurd h (by simp)
      · rintro ⟨s2, erases, h⟩
        exact absurd h (by simp)

/-- Claim C6: when the connection state already equals connected on entry,
wait_conn returns at once without waiting on the condition variable, for
every configured timeout. -/
theorem c6_wait_conn_short_circuit (timeout : Option Int) (addr : String)
    (port : Nat) (signalFires : Bool) :
    wait_conn connection_state.connected timeout addr port signalFires
      = ⟨WaitOutcome.returned, false⟩ := by
  simp [wait_conn]

/-- Claim C7: with a configured timeout t and a state other than connected,
wait_conn raises a timeout when the connection finished signal does not
fire within the duration, and the raised error carries the configured
duration together with the target address and port. -/
theorem c7_timeout_carries_context (st : connection_state) (t : Int)
    (addr : String) (port : Nat) (h : st ≠ connection_state.connected) :
    wait_conn st (some t) addr port false
      = ⟨WaitOutcome.timedOut t addr port, true⟩ := by
  simp [wait_conn, h]

/-- Witness for C7 at a concrete initial state, duration, address and
port. -/
theorem c7_witness :
    wait_conn connection_state.initial (some 100) "127.0.0.1" 8080 false
      = ⟨WaitOutcome.timedOut 100 "127.0.0.1" 8080, true⟩ :=
  c7_timeout_carries_context connection_state.initial 100 "127.0.0.1" 8080
    (by decide)

/-- Claim C9: the condition variable is notified only in the success branch
of the connect completion handler; after a failed attempt the promise is
fulfilled with disconnected but no notification is issued, and a thread
blocked in wait_conn with no timeout configured and no arriving signal
stays blocked. -/
theorem c9_failure_no_notify (prev : Bool) (e : Nat) (st : connection_state)
    (addr : String) (port : Nat) (h : st ≠ connection_state.connected) :
    (do_connect_handler (some e) prev).notified = false
    ∧ (do_connect_handler (some e) prev).promiseValue = connection_state.disconnected
    ∧ (do_connect_handler none prev).notified = true
    ∧ wait_conn st none addr port false = ⟨WaitOutcome.blockedForever, true⟩ := by
  refine ⟨rfl, rfl, rfl, ?_⟩
  simp [wait_conn, h]

/-- Witness for C9 at a concrete failed connect and a concrete blocked
waiter. -/
theorem c9_witness :
    (do_connect_handler (some 111) false).notified = false
    ∧ (do_connect_handler (some 111) false).promiseValue
      = connection_state.disconnected
    ∧ (do_connect_handler none false).notified = true
    ∧ wait_conn connection_state.initial none "localhost" 9000 false
      = ⟨WaitOutcome.blockedForever, true⟩ :=
  c9_failure_no_notify false 111 connection_state.initial "localhost" 9000
    (by decide)

/-- Claim C10: posting a call whose id is already present in the
correlation table leaves the state unchanged, because insert on
unordered_map does not overwrite an existing key: the existing entry keeps
its method name and promise reference, and the new method name and fresh
promise are not stored, so no response frame can ever reach the new
completion through the table. -/
theorem c10_duplicate_insert_noop (s : ClientState) (idx : Nat) (name : String)
    (entry : String × Nat) (h : alookup s.table idx = some entry) :
    post s idx name = s
    ∧ alookup (post s idx name).table idx = some entry
    ∧ (alookup s.promises s.nextRef = none →
        alookup (post s idx name).promises s.nextRef = none) := by
  have hsome : (alookup s.table idx).isSome = true := by rw [h]; rfl
  have h1 : post s idx name = s := by simp [post, hsome]
  exact ⟨h1, by rw [h1]; exact h, fun hf => by rw [h1]; exact hf⟩

/-- Witness for C10 at a concrete client state with one registered call. -/
theorem c10_witness :
    post ⟨[(1, ("m", 0))], [(0, PromiseState.unset)], 1,
        connection_state.connected⟩ 1 "other"
      = ⟨[(1, ("m", 0))], [(0, PromiseState.unset)], 1, connection_state.connected⟩
    ∧ alookup (post ⟨[(1, ("m", 0))], [(0, PromiseState.unset)], 1,
        connection_state.connected⟩ 1 "other").table 1 = some ("m", 0) :=
  ⟨(c10_duplicate_insert_noop ⟨[(1, ("m", 0))], [(0, PromiseState.unset)], 1,
      connection_state.connected⟩ 1 "other" ("m", 0) (by rfl)).1,
   (c10_duplicate_insert_noop ⟨[(1, ("m", 0))], [(0, PromiseState.unset)], 1,
      connection_state.connected⟩ 1 "other" ("m", 0) (by rfl)).2.1⟩

end rpc
